import Mathlib

/-!
Verification of the Bible verse reference grammar and canonicalization engine
of VerseReferences.py (classes SimpleVerseKey, SimpleVersesKey, VerseRangeKey,
FlexibleVersesKey).

Modelling conventions:
- Python strings are modelled as lists of characters (Str below).
- The anchored regular expressions VERSE_RE, VERSES2_RE, VERSES2C_RE,
  VERSES3_RE, VERSES3C_RE, CHAPTER_RE, VERSE_RANGE_RE, CHAPTER_RANGE_RE,
  VERSE_RANGE_PLUS_RE, VERSE_PLUS_RANGE_RE and VERSE_PLUS_RANGE_PLUS_RE are
  concatenations of fixed-width character classes, the number class
  1 to 199 without leading zeros, the optional suffix group, and one-character
  separators.  Because no separator is a digit, a suffix letter, or the
  exclamation mark, Python regex backtracking is equivalent to the
  deterministic maximal-munch recognizers defined below, which return the
  capture groups of the match.
- Each parseReferenceString method mutates self and returns True or False;
  here it returns the constructed value in an Option, none standing for the
  False return (which the constructors turn into a raised TypeError).
- The while loops that expand a range verse by verse have no a priori bound,
  so they are modelled with explicit fuel; a result of none for every fuel
  is a proof that the source loop never terminates.
- Python attributes that a branch fails to assign are modelled with Option:
  none stands for the attribute being absent, so that reading it raises
  AttributeError.
- The global flags debugFlag and strictCheckingFlag default to False in
  BibleOrgSysGlobals (outside this module); the functions below model the
  default non-strict behaviour, in which the assert statements do not run
  and book-code registry lookups only produce log messages, never affecting
  the constructed value.  The one strict-mode assertion relevant to the
  claims is modelled separately by strictAssertVerseRange.
-/

set_option maxRecDepth 400000

namespace VerseReferences

/-- Python strings, modelled as lists of characters. -/
abbrev Str := List Char

/-- Embeds a Lean string literal as a character list. -/
def strLit (s : String) : Str := s.data

/-! ## Decimal numerals: models of the Python str and int conversions -/

/-- The decimal digit character for m modulo 10. -/
def digitChar (m : Nat) : Char :=
  if m = 1 then '1' else if m = 2 then '2' else if m = 3 then '3'
  else if m = 4 then '4' else if m = 5 then '5' else if m = 6 then '6'
  else if m = 7 then '7' else if m = 8 then '8' else if m = 9 then '9' else '0'

/-- Fueled digit accumulator for natToChars; fuel n + 1 always suffices. -/
def natToCharsAux : Nat → Nat → List Char → List Char
  | 0, _, acc => acc
  | fuel + 1, n, acc =>
    let d := digitChar (n % 10)
    let n' := n / 10
    if n' = 0 then d :: acc else natToCharsAux fuel n' (d :: acc)

/-- Model of the Python expression str(n) for a natural number n:
the canonical decimal numeral, without leading zeros. -/
def natToChars (n : Nat) : Str := natToCharsAux (n + 1) n []

/-- Numeric value of a digit character. -/
def charToVal (c : Char) : Nat := c.toNat - 48

/-- Model of the Python expression int(s) for a string of decimal digits. -/
def charsToNat (ds : Str) : Nat := ds.foldl (fun a c => 10 * a + charToVal c) 0

/-! ## Character classes of the regular expressions (lines 98 to 101) -/

/-- First book-code character class, from BBB_RE: A to P, R to X, or Z. -/
def isBBB1 (c : Char) : Bool := ('A' ≤ c && c ≤ 'P') || ('R' ≤ c && c ≤ 'X') || c = 'Z'

/-- Second book-code character class, from BBB_RE: A to E, G to V, X to Z, or 1. -/
def isBBB2 (c : Char) : Bool :=
  ('A' ≤ c && c ≤ 'E') || ('G' ≤ c && c ≤ 'V') || ('X' ≤ c && c ≤ 'Z') || c = '1'

/-- Third book-code character class, from BBB_RE: A to W, Y, Z, or 1 to 6. -/
def isBBB3 (c : Char) : Bool :=
  ('A' ≤ c && c ≤ 'W') || c = 'Y' || c = 'Z' || ('1' ≤ c && c ≤ '6')

/-- Suffix letter class, from S_RE: a to f. -/
def isSuffixChar (c : Char) : Bool := 'a' ≤ c && c ≤ 'f'

/-- Digit class of the regexes, 0 to 9. -/
def isDigitChar (c : Char) : Bool := '0' ≤ c && c ≤ '9'

/-- The optional exclamation mark inserted before a non-empty suffix, both in
the machine serialization (line 190) and in the range strings the compound
branches rebuild (lines 782, 802 and 823): Python renders the conditional
expression testing the truthiness of S. -/
def bangText (s : Str) : Str := if s = [] then [] else ['!']

/-- Whether a three-character string matches the BBB_RE character classes. -/
def validBBB : Str → Bool
  | [b1, b2, b3] => isBBB1 b1 && isBBB2 b2 && isBBB3 b3
  | _ => false

/-- The language of C_RE and V_RE, the chapter and verse number class:
one digit 1 to 9, two digits starting 1 to 9, or three digits starting 1,
i.e. the canonical numerals of 1 to 199. -/
def validCV : Str → Bool
  | [a] => '1' ≤ a && a ≤ '9'
  | [a, b] => ('1' ≤ a && a ≤ '9') && isDigitChar b
  | [a, b, c] => a = '1' && isDigitChar b && isDigitChar c
  | _ => false

/-- The language of the optional suffix group: empty, or one letter a to f. -/
def validS : Str → Bool
  | [] => true
  | [c] => isSuffixChar c
  | _ => false

/-! ## Deterministic recognizers equivalent to the anchored regexes -/

/-- True when the string does not start with a digit, so that a maximal
digit run ends right before it. -/
def noDigitHead : Str → Bool
  | [] => true
  | c :: _ => !isDigitChar c

/-- True when the string is empty or starts with one of the separator
characters that may follow a VS group: not a digit and not an exclamation
mark, so the VS group ends right before it. -/
def sepOk : Str → Bool
  | [] => true
  | c :: _ => !isDigitChar c && !(c = '!')

/-- Splits off the maximal leading run of digit characters. -/
def takeDigits : Str → Str × Str
  | [] => ([], [])
  | c :: rest =>
    if isDigitChar c then
      let (ds, r) := takeDigits rest
      (c :: ds, r)
    else ([], c :: rest)

/-- Recognizes the C_RE and V_RE group: in every context in which the group
occurs, the following regex token is never a digit, so the group must consume
the whole maximal digit run, which must lie in the 1 to 199 language. -/
def parseCV (l : Str) : Option (Str × Str) :=
  let (ds, r) := takeDigits l
  if validCV ds then some (ds, r) else none

/-- Recognizes the optional suffix tail of VS_RE, a group reading
exclamation mark followed by an optional letter a to f.  After a literal
exclamation mark, a following suffix letter is always consumed greedily;
this agrees with regex backtracking because neither the exclamation mark
nor a letter a to f can begin any following regex token. -/
def parseSuffix : Str → Str × Str
  | [] => ([], [])
  | c :: rest =>
    if c = '!' then
      match rest with
      | c2 :: rest2 => if isSuffixChar c2 then ([c2], rest2) else ([], rest)
      | [] => ([], [])
    else ([], c :: rest)

/-- Recognizes the three fixed book-code character classes of BBB_RE. -/
def parseBBB : Str → Option (Str × Str)
  | b1 :: b2 :: b3 :: rest =>
    if isBBB1 b1 && isBBB2 b2 && isBBB3 b3 then some ([b1, b2, b3], rest) else none
  | _ => none

/-- Consumes one expected literal separator character. -/
def expectChar (c : Char) : Str → Option Str
  | x :: rest => if x = c then some rest else none
  | [] => none

/-- Recognizes VS_RE, returning the V and S groups (S empty when absent). -/
def parseVS (l : Str) : Option ((Str × Str) × Str) :=
  match parseCV l with
  | none => none
  | some (v, r) =>
    let (s, r2) := parseSuffix r
    some ((v, s), r2)

/-- Recognizes CVS_RE, returning the C, V and S groups. -/
def parseCVS (l : Str) : Option ((Str × Str × Str) × Str) :=
  match parseCV l with
  | none => none
  | some (c, r) =>
    match expectChar ':' r with
    | none => none
    | some r2 =>
      match parseVS r2 with
      | none => none
      | some ((v, s), r3) => some ((c, v, s), r3)

/-- Recognizes BCVS_RE, returning the BBB, C, V and S groups. -/
def parseBCVS (l : Str) : Option ((Str × Str × Str × Str) × Str) :=
  match parseBBB l with
  | none => none
  | some (bbb, r) =>
    match expectChar '_' r with
    | none => none
    | some r2 =>
      match parseCVS r2 with
      | none => none
      | some ((c, v, s), r3) => some ((bbb, c, v, s), r3)

/-- Anchored VERSE_RE: a whole-string BCVS match. -/
def matchVERSE (l : Str) : Option (Str × Str × Str × Str) :=
  match parseBCVS l with
  | some (g, []) => some g
  | _ => none

/-- Anchored VERSES2_RE: BCVS, comma, VS. -/
def matchVERSES2 (l : Str) : Option (Str × Str × Str × Str × Str × Str) :=
  match parseBCVS l with
  | some ((bbb, c, v1, s1), r) =>
    (match expectChar ',' r with
     | some r2 =>
       (match parseVS r2 with
        | some ((v2, s2), []) => some (bbb, c, v1, s1, v2, s2)
        | _ => none)
     | none => none)
  | none => none

/-- Anchored VERSES2C_RE: BCVS, semicolon, CVS. -/
def matchVERSES2C (l : Str) : Option (Str × Str × Str × Str × Str × Str × Str) :=
  match parseBCVS l with
  | some ((bbb, c1, v1, s1), r) =>
    (match expectChar ';' r with
     | some r2 =>
       (match parseCVS r2 with
        | some ((c2, v2, s2), []) => some (bbb, c1, v1, s1, c2, v2, s2)
        | _ => none)
     | none => none)
  | none => none

/-- Anchored VERSES3_RE: BCVS, comma, VS, comma, VS. -/
def matchVERSES3 (l : Str) :
    Option (Str × Str × Str × Str × Str × Str × Str × Str) :=
  match parseBCVS l with
  | some ((bbb, c, v1, s1), r) =>
    (match expectChar ',' r with
     | some r2 =>
       (match parseVS r2 with
        | some ((v2, s2), r3) =>
          (match expectChar ',' r3 with
           | some r4 =>
             (match parseVS r4 with
              | some ((v3, s3), []) => some (bbb, c, v1, s1, v2, s2, v3, s3)
              | _ => none)
           | none => none)
        | _ => none)
     | none => none)
  | none => none

/-- Anchored VERSES3C_RE: BCVS, semicolon, CVS, semicolon, CVS. -/
def matchVERSES3C (l : Str) :
    Option (Str × Str × Str × Str × Str × Str × Str × Str × Str × Str) :=
  match parseBCVS l with
  | some ((bbb, c1, v1, s1), r) =>
    (match expectChar ';' r with
     | some r2 =>
       (match parseCVS r2 with
        | some ((c2, v2, s2), r3) =>
          (match expectChar ';' r3 with
           | some r4 =>
             (match parseCVS r4 with
              | some ((c3, v3, s3), []) =>
                some (bbb, c1, v1, s1, c2, v2, s2, c3, v3, s3)
              | _ => none)
           | none => none)
        | _ => none)
     | none => none)
  | none => none

/-- Anchored CHAPTER_RE: BBB, underscore, C. -/
def matchCHAPTER (l : Str) : Option (Str × Str) :=
  match parseBBB l with
  | some (bbb, r) =>
    (match expectChar '_' r with
     | some r2 =>
       (match parseCV r2 with
        | some (c, []) => some (bbb, c)
        | _ => none)
     | none => none)
  | none => none

/-- Anchored VERSE_RANGE_RE: BCVS, hyphen, VS. -/
def matchVERSE_RANGE (l : Str) : Option (Str × Str × Str × Str × Str × Str) :=
  match parseBCVS l with
  | some ((bbb, c, v1, s1), r) =>
    (match expectChar '-' r with
     | some r2 =>
       (match parseVS r2 with
        | some ((v2, s2), []) => some (bbb, c, v1, s1, v2, s2)
        | _ => none)
     | none => none)
  | none => none

/-- Anchored CHAPTER_RANGE_RE: BCVS, en-dash, CVS. -/
def matchCHAPTER_RANGE (l : Str) :
    Option (Str × Str × Str × Str × Str × Str × Str) :=
  match parseBCVS l with
  | some ((bbb, c1, v1, s1), r) =>
    (match expectChar '–' r with
     | some r2 =>
       (match parseCVS r2 with
        | some ((c2, v2, s2), []) => some (bbb, c1, v1, s1, c2, v2, s2)
        | _ => none)
     | none => none)
  | none => none

/-- Anchored VERSE_RANGE_PLUS_RE: BCVS, hyphen, VS, comma, VS. -/
def matchVERSE_RANGE_PLUS (l : Str) :
    Option (Str × Str × Str × Str × Str × Str × Str × Str) :=
  match parseBCVS l with
  | some ((bbb, c, v1, s1), r) =>
    (match expectChar '-' r with
     | some r2 =>
       (match parseVS r2 with
        | some ((v2, s2), r3) =>
          (match expectChar ',' r3 with
           | some r4 =>
             (match parseVS r4 with
              | some ((v3, s3), []) => some (bbb, c, v1, s1, v2, s2, v3, s3)
              | _ => none)
           | none => none)
        | _ => none)
     | none => none)
  | none => none

/-- Anchored VERSE_PLUS_RANGE_RE: BCVS, comma, VS, hyphen, VS. -/
def matchVERSE_PLUS_RANGE (l : Str) :
    Option (Str × Str × Str × Str × Str × Str × Str × Str) :=
  match parseBCVS l with
  | some ((bbb, c, v1, s1), r) =>
    (match expectChar ',' r with
     | some r2 =>
       (match parseVS r2 with
        | some ((v2, s2), r3) =>
          (match expectChar '-' r3 with
           | some r4 =>
             (match parseVS r4 with
              | some ((v3, s3), []) => some (bbb, c, v1, s1, v2, s2, v3, s3)
              | _ => none)
           | none => none)
        | _ => none)
     | none => none)
  | none => none

/-- Anchored VERSE_PLUS_RANGE_PLUS_RE: BCVS, comma, VS, hyphen, VS, comma, VS. -/
def matchVERSE_PLUS_RANGE_PLUS (l : Str) :
    Option (Str × Str × Str × Str × Str × Str × Str × Str × Str × Str) :=
  match parseBCVS l with
  | some ((bbb, c, v1, s1), r) =>
    (match expectChar ',' r with
     | some r2 =>
       (match parseVS r2 with
        | some ((v2, s2), r3) =>
          (match expectChar '-' r3 with
           | some r4 =>
             (match parseVS r4 with
              | some ((v3, s3), r5) =>
                (match expectChar ',' r5 with
                 | some r6 =>
                   (match parseVS r6 with
                    | some ((v4, s4), []) =>
                      some (bbb, c, v1, s1, v2, s2, v3, s3, v4, s4)
                    | _ => none)
                 | none => none)
              | _ => none)
           | none => none)
        | _ => none)
     | none => none)
  | none => none

/-! ## SimpleVerseKey (lines 135 to 275) -/

/-- The BCVS reference tuple held by a SimpleVerseKey: book code, chapter
number string, verse number string, and suffix (empty string when absent). -/
structure SimpleVerseKey where
  BBB : Str
  C : Str
  V : Str
  S : Str
deriving DecidableEq

/-- Machine-format serialization (line 190): BBB underscore C colon V,
with an exclamation mark inserted before a non-empty suffix. -/
def SimpleVerseKey.getVerseKeyText (k : SimpleVerseKey) : Str :=
  k.BBB ++ ['_'] ++ k.C ++ [':'] ++ k.V ++ bangText k.S ++ k.S

/-- Human-readable serialization (line 187): BBB space C colon V S. -/
def SimpleVerseKey.getShortText (k : SimpleVerseKey) : Str :=
  k.BBB ++ [' '] ++ k.C ++ [':'] ++ k.V ++ k.S

/-- Dictionary hash string (line 193).  The Python format string there has
only two placeholders, so only the BBB and C arguments are rendered; the V
and S arguments passed to format are ignored. -/
def SimpleVerseKey.makeHash (k : SimpleVerseKey) : Str :=
  k.BBB ++ [':'] ++ k.C

/-- Parse of the VERSE_RE grammar (lines 245 to 270); none models the
False return, which the string-mode constructor turns into a TypeError. -/
def SimpleVerseKey.parseReferenceString (s : Str) : Option SimpleVerseKey :=
  match matchVERSE s with
  | some (bbb, c, v, su) => some ⟨bbb, c, v, su⟩
  | none => none

/-- A single verse yields exactly itself (lines 272 to 274). -/
def SimpleVerseKey.getIncludedVerses (k : SimpleVerseKey) : List SimpleVerseKey := [k]

/-! ## SimpleVersesKey (lines 279 to 460) -/

/-- A verse list: the constituent keys and the matched grammar label. -/
structure SimpleVersesKey where
  verseKeysList : List SimpleVerseKey
  keyType : Str
deriving DecidableEq

/-- Parse of the four list grammars in source order (lines 382 to 454).
The VERSES3_RE and VERSES3C_RE branches (lines 419 to 448) set keyType and
return True without ever assigning verseKeysList, so the list keeps the
empty value given to it by the constructor (line 299). -/
def SimpleVersesKey.parseReferenceString (s : Str) : Option SimpleVersesKey :=
  match matchVERSES2 s with
  | some (bbb, c, v1, s1, v2, s2) =>
    some ⟨[⟨bbb, c, v1, s1⟩, ⟨bbb, c, v2, s2⟩], strLit "2V"⟩
  | none =>
  match matchVERSES2C s with
  | some (bbb, c1, v1, s1, c2, v2, s2) =>
    some ⟨[⟨bbb, c1, v1, s1⟩, ⟨bbb, c2, v2, s2⟩], strLit "2CV"⟩
  | none =>
  match matchVERSES3 s with
  | some _ => some ⟨[], strLit "3V"⟩
  | none =>
  match matchVERSES3C s with
  | some _ => some ⟨[], strLit "3CV"⟩
  | none => none

/-- Yields the stored constituent verses in order (lines 456 to 459). -/
def SimpleVersesKey.getIncludedVerses (k : SimpleVersesKey) : List SimpleVerseKey :=
  k.verseKeysList

/-! ## VerseRangeKey (lines 464 to 637) -/

/-- Outcome of a construction that can also fail to terminate: ok is a
returned value, noMatch is the False return (TypeError from the
constructor), and outOfFuel reports that the expansion loop did not finish
within the given fuel.  A result of outOfFuel at every fuel is a proof
that the source loops forever on that input. -/
inductive PRes (α : Type) where
  | ok (a : α)
  | noMatch
  | outOfFuel
deriving DecidableEq

/-- Applies a function under the ok constructor. -/
def PRes.map (f : α → β) : PRes α → PRes β
  | .ok a => .ok (f a)
  | .noMatch => .noMatch
  | .outOfFuel => .outOfFuel

/-- Fueled translation of the same-chapter expansion loop (lines 579 to 585):
starting from the V1 group, if V equals V2 (string comparison) append the end
point with its suffix and stop; otherwise append a suffix-free key for the
current verse and set V to str(int(V) + 1). -/
def expandLoopVV (bbb c v2 s2 : Str) : Nat → Str → Option (List SimpleVerseKey)
  | fuel, v =>
    if v = v2 then some [⟨bbb, c, v2, s2⟩]
    else
      match fuel with
      | 0 => none
      | fuel' + 1 =>
        (expandLoopVV bbb c v2 s2 fuel' (natToChars (charsToNat v + 1))).map
          (fun l => ⟨bbb, c, v, []⟩ :: l)

/-- Fueled translation of the cross-chapter expansion loop (lines 602 to 610):
if C equals C2 and V equals V2 append the end point and stop; otherwise
append a suffix-free key, set V to str(int(V) + 1), and when int(V)
exceeds 222 move to chapter str(int(C) + 1) at verse 1. -/
def expandLoopCVCV (bbb c2 v2 s2 : Str) : Nat → Str → Str → Option (List SimpleVerseKey)
  | fuel, c, v =>
    if c = c2 ∧ v = v2 then some [⟨bbb, c, v2, s2⟩]
    else
      match fuel with
      | 0 => none
      | fuel' + 1 =>
        (if charsToNat (natToChars (charsToNat v + 1)) > 222 then
           expandLoopCVCV bbb c2 v2 s2 fuel' (natToChars (charsToNat c + 1)) (strLit "1")
         else
           expandLoopCVCV bbb c2 v2 s2 fuel' c (natToChars (charsToNat v + 1))).map
          (fun l => ⟨bbb, c, v, []⟩ :: l)

/-- A verse range: endpoints, the eagerly computed expansion, and the matched
grammar label.  verseKeysList is an Option because the constructor never
initializes the attribute (the assignment at line 486 is commented out) and
the CHAPTER_RE branch never assigns it, so reading it on a whole-chapter key
raises AttributeError; none models the absent attribute. -/
structure VerseRangeKey where
  rangeStart : SimpleVerseKey
  rangeEnd : SimpleVerseKey
  verseKeysList : Option (List SimpleVerseKey)
  keyType : Str
deriving DecidableEq

/-- Parse of the three range grammars in source order (lines 557 to 631):
VERSE_RANGE_RE with its expansion loop, CHAPTER_RANGE_RE with its expansion
loop, then CHAPTER_RE, which assigns the endpoints verse 1 and verse 999 of
the chapter but no expansion list. -/
def VerseRangeKey.parseReferenceString (fuel : Nat) (s : Str) : PRes VerseRangeKey :=
  match matchVERSE_RANGE s with
  | some (bbb, c, v1, s1, v2, s2) =>
    (match expandLoopVV bbb c v2 s2 fuel v1 with
     | some l => .ok ⟨⟨bbb, c, v1, s1⟩, ⟨bbb, c, v2, s2⟩, some l, strLit "V-V"⟩
     | none => .outOfFuel)
  | none =>
  match matchCHAPTER_RANGE s with
  | some (bbb, c1, v1, s1, c2, v2, s2) =>
    (match expandLoopCVCV bbb c2 v2 s2 fuel c1 v1 with
     | some l => .ok ⟨⟨bbb, c1, v1, s1⟩, ⟨bbb, c2, v2, s2⟩, some l, strLit "CV-CV"⟩
     | none => .outOfFuel)
  | none =>
  match matchCHAPTER s with
  | some (bbb, c) =>
    .ok ⟨⟨bbb, c, strLit "1", []⟩, ⟨bbb, c, strLit "999", []⟩, none, strLit "C"⟩
  | none => .noMatch

/-- Machine-format serialization of a range (lines 504 to 505): the two
endpoint serializations joined by a hyphen, for every keyType. -/
def VerseRangeKey.getVerseKeyText (k : VerseRangeKey) : Str :=
  k.rangeStart.getVerseKeyText ++ ['-'] ++ k.rangeEnd.getVerseKeyText

/-- Iterates self.verseKeysList (lines 633 to 636); on a key whose attribute
was never assigned the iteration raises AttributeError, modelled by none. -/
def VerseRangeKey.getIncludedVerses (k : VerseRangeKey) : Option (List SimpleVerseKey) :=
  k.verseKeysList

/-- Strict-mode assertions of the VERSE_RANGE_RE branch (lines 574 to 575):
the only assert checks membership of the book code in the external registry,
here a predicate parameter; the V1, S1, V2 and S2 groups are not inspected,
so no range-order condition is ever asserted. -/
def strictAssertVerseRange (codes : Str → Bool) (bbb c v1 s1 v2 s2 : Str) : Bool :=
  codes bbb

/-! ## FlexibleVersesKey (lines 641 to 840) -/

/-- One element of the dispatcher result list: the three concrete key shapes. -/
inductive VerseKeyObject where
  | svk (k : SimpleVerseKey)
  | svsk (k : SimpleVersesKey)
  | vrk (k : VerseRangeKey)
deriving DecidableEq

/-- The dispatcher value: the collected key objects and the keyType label,
which the first three branches leave unassigned (their assignments are
commented out at lines 752, 758 and 764), modelled by none. -/
structure FlexibleVersesKey where
  verseKeyObjectList : List VerseKeyObject
  keyType : Option Str
deriving DecidableEq

/-- The range string rebuilt by the compound branches from their captured
groups, in the format BBB underscore C colon V1 suffix hyphen V2 suffix. -/
def mkRangeText (bbb c v1 s1 v2 s2 : Str) : Str :=
  bbb ++ ['_'] ++ c ++ [':'] ++ v1 ++ bangText s1 ++ s1 ++ ['-'] ++ v2 ++ bangText s2 ++ s2

/-- Branch body of the VERSE_RANGE_PLUS_RE grammar (lines 768 to 786):
the dispatcher rebuilds a range string from the captured groups, constructs
a VerseRangeKey from it (the rebuilt string always matches VERSE_RANGE_RE,
proved below, so its TypeError case is unreachable), and appends the
trailing single verse.  The rebuilt range construction can still loop
forever when the captured range is reversed, reflected by outOfFuel. -/
def verseRangePlusResult (fuel : Nat) (bbb c v1 s1 v2 s2 v3 s3 : Str) :
    PRes FlexibleVersesKey :=
  match VerseRangeKey.parseReferenceString fuel (mkRangeText bbb c v1 s1 v2 s2) with
  | .ok rk => .ok ⟨[.vrk rk, .svk ⟨bbb, c, v3, s3⟩], some (strLit "V-V,V")⟩
  | .outOfFuel => .outOfFuel
  | .noMatch => .noMatch

/-- Branch body of the VERSE_PLUS_RANGE_RE grammar (lines 787 to 805):
a leading single verse, then the rebuilt range over V2 to V3. -/
def versePlusRangeResult (fuel : Nat) (bbb c v1 s1 v2 s2 v3 s3 : Str) :
    PRes FlexibleVersesKey :=
  match VerseRangeKey.parseReferenceString fuel (mkRangeText bbb c v2 s2 v3 s3) with
  | .ok rk => .ok ⟨[.svk ⟨bbb, c, v1, s1⟩, .vrk rk], some (strLit "V,V-V")⟩
  | .outOfFuel => .outOfFuel
  | .noMatch => .noMatch

/-- Branch body of the VERSE_PLUS_RANGE_PLUS_RE grammar (lines 806 to 827):
a leading single verse, the rebuilt range over V2 to V3, and a trailing
single verse. -/
def versePlusRangePlusResult (fuel : Nat) (bbb c v1 s1 v2 s2 v3 s3 v4 s4 : Str) :
    PRes FlexibleVersesKey :=
  match VerseRangeKey.parseReferenceString fuel (mkRangeText bbb c v2 s2 v3 s3) with
  | .ok rk =>
    .ok ⟨[.svk ⟨bbb, c, v1, s1⟩, .vrk rk, .svk ⟨bbb, c, v4, s4⟩], some (strLit "V,V-V,V")⟩
  | .outOfFuel => .outOfFuel
  | .noMatch => .noMatch

/-- Parse of the dispatcher (lines 741 to 831): it tries SimpleVerseKey,
SimpleVersesKey and VerseRangeKey in that order with ignoreParseErrors set,
then the three compound grammars VERSE_RANGE_PLUS_RE, VERSE_PLUS_RANGE_RE
and VERSE_PLUS_RANGE_PLUS_RE; the first success returns.  The second
component is the list of parse-failure log messages: the sub-parses are
silent (ignoreParseErrors suppresses their error lines), and only the final
else branch (line 829) logs, once, citing the original string. -/
def FlexibleVersesKey.parseReferenceString (fuel : Nat) (s : Str) :
    PRes FlexibleVersesKey × List Str :=
  match SimpleVerseKey.parseReferenceString s with
  | some k => (.ok ⟨[.svk k], none⟩, [])
  | none =>
  match SimpleVersesKey.parseReferenceString s with
  | some k => (.ok ⟨[.svsk k], none⟩, [])
  | none =>
  match VerseRangeKey.parseReferenceString fuel s with
  | .ok k => (.ok ⟨[.vrk k], none⟩, [])
  | .outOfFuel => (.outOfFuel, [])
  | .noMatch =>
  match matchVERSE_RANGE_PLUS s with
  | some (bbb, c, v1, s1, v2, s2, v3, s3) =>
    (verseRangePlusResult fuel bbb c v1 s1 v2 s2 v3 s3, [])
  | none =>
  match matchVERSE_PLUS_RANGE s with
  | some (bbb, c, v1, s1, v2, s2, v3, s3) =>
    (versePlusRangeResult fuel bbb c v1 s1 v2 s2 v3 s3, [])
  | none =>
  match matchVERSE_PLUS_RANGE_PLUS s with
  | some (bbb, c, v1, s1, v2, s2, v3, s3, v4, s4) =>
    (versePlusRangePlusResult fuel bbb c v1 s1 v2 s2 v3 s3 v4 s4, [])
  | none => (.noMatch, [s])

/-- Whether none of the grammars attempted by the dispatcher matches the
string: the VERSE_RE grammar, the four list grammars, the three range
grammars, and the three compound grammars. -/
def noGrammarMatch (s : Str) : Bool :=
  (matchVERSE s).isNone && (matchVERSES2 s).isNone && (matchVERSES2C s).isNone &&
  (matchVERSES3 s).isNone && (matchVERSES3C s).isNone &&
  (matchVERSE_RANGE s).isNone && (matchCHAPTER_RANGE s).isNone &&
  (matchCHAPTER s).isNone && (matchVERSE_RANGE_PLUS s).isNone &&
  (matchVERSE_PLUS_RANGE s).isNone && (matchVERSE_PLUS_RANGE_PLUS s).isNone

/-- Specification-side description of the same-chapter expansion produced by
the loop at lines 579 to 585 for a range from v1 to v1 + d: d suffix-free
keys for the successive verses below the end point, then the end point with
its own suffix. -/
def expandedVV (bbb c s2 : Str) : Nat → Nat → List SimpleVerseKey
  | v1, 0 => [⟨bbb, c, natToChars v1, s2⟩]
  | v1, d + 1 => ⟨bbb, c, natToChars v1, []⟩ :: expandedVV bbb c s2 (v1 + 1) d

/-! ## Lemmas about the decimal numeral conversions -/

theorem charToVal_digitChar : ∀ m < 10, charToVal (digitChar m) = m := by decide

theorem digitChar_isDigit (m : Nat) : isDigitChar (digitChar m) = true := by
  unfold digitChar
  repeat' split
  all_goals decide

theorem charsToNat_foldl (ds : Str) :
    ∀ a : Nat, ds.foldl (fun a c => 10 * a + charToVal c) a =
      a * 10 ^ ds.length + charsToNat ds := by
  induction ds with
  | nil => intro a; simp [charsToNat]
  | cons c ds ih =>
    intro a
    simp only [charsToNat, List.foldl_cons, List.length_cons]
    rw [ih (10 * a + charToVal c), ih (10 * 0 + charToVal c)]
    ring

theorem charsToNat_cons (c : Char) (ds : Str) :
    charsToNat (c :: ds) = charToVal c * 10 ^ ds.length + charsToNat ds := by
  have h := charsToNat_foldl (c :: ds) 0
  simp only [List.foldl_cons] at h
  rw [charsToNat, List.foldl_cons]
  rw [charsToNat_foldl ds (10 * 0 + charToVal c)]
  ring

theorem natToCharsAux_succ (fuel n : Nat) (acc : Str) :
    natToCharsAux (fuel + 1) n acc =
      if n / 10 = 0 then digitChar (n % 10) :: acc
      else natToCharsAux fuel (n / 10) (digitChar (n % 10) :: acc) := rfl

theorem charsToNat_digitChar_cons (n : Nat) (hn : n < 10) (acc : Str) :
    charsToNat (digitChar (n % 10) :: acc) = n * 10 ^ acc.length + charsToNat acc := by
  rw [charsToNat_cons]
  have hmod : n % 10 = n := Nat.mod_eq_of_lt hn
  rw [hmod, charToVal_digitChar n hn]

theorem charsToNat_natToCharsAux :
    ∀ (fuel n : Nat) (acc : Str), n < 10 ^ (fuel + 1) →
      charsToNat (natToCharsAux (fuel + 1) n acc) =
        n * 10 ^ acc.length + charsToNat acc := by
  intro fuel
  induction fuel with
  | zero =>
    intro n acc hn
    have hn10 : n < 10 := by simpa using hn
    have hdiv : n / 10 = 0 := Nat.div_eq_of_lt hn10
    rw [natToCharsAux_succ, if_pos hdiv, charsToNat_digitChar_cons n hn10]
  | succ fuel ih =>
    intro n acc hn
    by_cases hdiv : n / 10 = 0
    · have hlt : n < 10 := (Nat.div_eq_zero_iff (by norm_num)).mp hdiv
      rw [natToCharsAux_succ, if_pos hdiv, charsToNat_digitChar_cons n hlt]
    · rw [natToCharsAux_succ, if_neg hdiv]
      have hlt : n / 10 < 10 ^ (fuel + 1) := by
        rw [Nat.div_lt_iff_lt_mul (by norm_num)]
        calc n < 10 ^ (fuel + 1 + 1) := hn
        _ = 10 ^ (fuel + 1) * 10 := by ring
      rw [ih (n / 10) (digitChar (n % 10) :: acc) hlt]
      rw [charsToNat_cons, charToVal_digitChar (n % 10) (Nat.mod_lt n (by norm_num))]
      simp only [List.length_cons]
      have hdm := Nat.div_add_mod n 10
      calc n / 10 * 10 ^ (acc.length + 1) + (n % 10 * 10 ^ acc.length + charsToNat acc)
          = (10 * (n / 10) + n % 10) * 10 ^ acc.length + charsToNat acc := by ring
      _ = n * 10 ^ acc.length + charsToNat acc := by rw [hdm]

theorem charsToNat_natToChars (n : Nat) : charsToNat (natToChars n) = n := by
  have hn : n < 10 ^ (n + 1) :=
    lt_of_lt_of_le (Nat.lt_pow_self (by norm_num) n)
      (Nat.pow_le_pow_right (by norm_num) (Nat.le_succ n))
  have h := charsToNat_natToCharsAux n n [] hn
  simpa [natToChars, charsToNat] using h

theorem natToChars_inj {a b : Nat} (h : natToChars a = natToChars b) : a = b := by
  have := congrArg charsToNat h
  rwa [charsToNat_natToChars, charsToNat_natToChars] at this

theorem natToCharsAux_digits :
    ∀ (fuel n : Nat) (acc : Str), acc.all isDigitChar = true →
      (natToCharsAux fuel n acc).all isDigitChar = true := by
  intro fuel
  induction fuel with
  | zero => intro n acc hacc; simpa [natToCharsAux] using hacc
  | succ fuel ih =>
    intro n acc hacc
    simp only [natToCharsAux]
    split
    · simp [List.all_cons, digitChar_isDigit, hacc]
    · exact ih (n / 10) (digitChar (n % 10) :: acc)
        (by simp [List.all_cons, digitChar_isDigit, hacc])

theorem natToChars_digits (n : Nat) : (natToChars n).all isDigitChar = true :=
  natToCharsAux_digits (n + 1) n [] rfl

theorem validCV_natToChars : ∀ n, n < 200 → 1 ≤ n → validCV (natToChars n) = true := by
  decide

/-! ## Correctness of the recognizers on serialized reference parts -/

theorem isDigitChar_of_one_nine {c : Char} (h1 : '1' ≤ c) (h2 : c ≤ '9') :
    isDigitChar c = true := by
  rw [isDigitChar, Bool.and_eq_true, decide_eq_true_eq, decide_eq_true_eq]
  exact ⟨le_trans (by decide) h1, h2⟩

theorem validCV_all_digits {ds : Str} (h : validCV ds = true) :
    ds.all isDigitChar = true := by
  match ds with
  | [a] =>
    rw [validCV, Bool.and_eq_true, decide_eq_true_eq, decide_eq_true_eq] at h
    simp [List.all_cons, isDigitChar_of_one_nine h.1 h.2]
  | [a, b] =>
    rw [validCV, Bool.and_eq_true, Bool.and_eq_true, decide_eq_true_eq,
      decide_eq_true_eq] at h
    simp [List.all_cons, isDigitChar_of_one_nine h.1.1 h.1.2, h.2]
  | [a, b, c] =>
    rw [validCV, Bool.and_eq_true, Bool.and_eq_true, decide_eq_true_eq] at h
    have ha : isDigitChar a = true := by rw [h.1.1]; decide
    simp [List.all_cons, ha, h.1.2, h.2]

theorem validCV_ne_nil {ds : Str} (h : validCV ds = true) : ds ≠ [] := by
  intro hnil; subst hnil; simp [validCV] at h

theorem takeDigits_append {ds rest : Str} (hds : ds.all isDigitChar = true)
    (hrest : noDigitHead rest = true) : takeDigits (ds ++ rest) = (ds, rest) := by
  induction ds with
  | nil =>
    simp only [List.nil_append]
    cases rest with
    | nil => rfl
    | cons c r =>
      simp only [noDigitHead, Bool.not_eq_true'] at hrest
      simp [takeDigits, hrest]
  | cons c ds ih =>
    simp only [List.all_cons, Bool.and_eq_true] at hds
    have hstep : takeDigits (c :: ds ++ rest) =
        (if isDigitChar c then
          match takeDigits (ds ++ rest) with
          | (ds2, r) => (c :: ds2, r)
        else ([], c :: (ds ++ rest))) := rfl
    rw [hstep, if_pos hds.1, ih hds.2]

theorem parseCV_append {v rest : Str} (hv : validCV v = true)
    (hrest : noDigitHead rest = true) : parseCV (v ++ rest) = some (v, rest) := by
  rw [parseCV, takeDigits_append (validCV_all_digits hv) hrest]
  simp [hv]

theorem parseSuffix_sep {rest : Str} (hrest : sepOk rest = true) :
    parseSuffix rest = ([], rest) := by
  cases rest with
  | nil => rfl
  | cons c r =>
    simp only [sepOk, Bool.and_eq_true, Bool.not_eq_true', decide_eq_false_iff_not] at hrest
    simp [parseSuffix, hrest.2]

theorem sepOk_noDigitHead {rest : Str} (h : sepOk rest = true) :
    noDigitHead rest = true := by
  cases rest with
  | nil => rfl
  | cons c r =>
    simp only [sepOk, Bool.and_eq_true] at h
    simp [noDigitHead, h.1]

theorem validS_cases {s : Str} (h : validS s = true) :
    s = [] ∨ ∃ c, s = [c] ∧ isSuffixChar c = true := by
  match s with
  | [] => exact Or.inl rfl
  | [c] => exact Or.inr ⟨c, rfl, h⟩
  | _ :: _ :: _ => simp [validS] at h

theorem parseVS_mk {v s rest : Str} (hv : validCV v = true) (hs : validS s = true)
    (hrest : sepOk rest = true) :
    parseVS (v ++ bangText s ++ s ++ rest) = some ((v, s), rest) := by
  rcases validS_cases hs with hnil | ⟨c, rfl, hc⟩
  · subst hnil
    have hb : bangText ([] : Str) = [] := rfl
    rw [hb, List.append_nil, List.append_nil]
    rw [parseVS, parseCV_append hv (sepOk_noDigitHead hrest)]
    simp [parseSuffix_sep hrest]
  · have hb : bangText [c] = ['!'] := rfl
    rw [hb]
    have hassoc : v ++ ['!'] ++ [c] ++ rest = v ++ ('!' :: c :: rest) := by
      simp
    rw [hassoc]
    rw [parseVS, @parseCV_append v ('!' :: c :: rest) hv
      (by simp only [noDigitHead]; decide)]
    simp [parseSuffix, hc]

theorem parseCVS_mk {c v s rest : Str} (hc : validCV c = true) (hv : validCV v = true)
    (hs : validS s = true) (hrest : sepOk rest = true) :
    parseCVS (c ++ [':'] ++ v ++ bangText s ++ s ++ rest) = some ((c, v, s), rest) := by
  have hassoc : c ++ [':'] ++ v ++ bangText s ++ s ++ rest =
      c ++ (':' :: (v ++ bangText s ++ s ++ rest)) := by simp
  rw [hassoc]
  rw [parseCVS, @parseCV_append c (':' :: (v ++ bangText s ++ s ++ rest)) hc
    (by simp only [noDigitHead]; decide)]
  simp only [expectChar, eq_self_iff_true, if_true]
  rw [parseVS_mk hv hs hrest]

theorem validBBB_cases {bbb : Str} (h : validBBB bbb = true) :
    ∃ b1 b2 b3, bbb = [b1, b2, b3] ∧
      isBBB1 b1 = true ∧ isBBB2 b2 = true ∧ isBBB3 b3 = true := by
  match bbb with
  | [b1, b2, b3] =>
    rw [validBBB, Bool.and_eq_true, Bool.and_eq_true] at h
    exact ⟨b1, b2, b3, rfl, h.1.1, h.1.2, h.2⟩
  | [] | [_] | [_, _] | _ :: _ :: _ :: _ :: _ => simp [validBBB] at h

theorem parseBCVS_mk {bbb c v s rest : Str} (hb : validBBB bbb = true)
    (hc : validCV c = true) (hv : validCV v = true) (hs : validS s = true)
    (hrest : sepOk rest = true) :
    parseBCVS (bbb ++ ['_'] ++ c ++ [':'] ++ v ++ bangText s ++ s ++ rest) =
      some ((bbb, c, v, s), rest) := by
  obtain ⟨b1, b2, b3, rfl, h1, h2, h3⟩ := validBBB_cases hb
  have hassoc : [b1, b2, b3] ++ ['_'] ++ c ++ [':'] ++ v ++ bangText s ++ s ++ rest =
      b1 :: b2 :: b3 :: ('_' :: (c ++ [':'] ++ v ++ bangText s ++ s ++ rest)) := by
    simp
  rw [hassoc]
  rw [parseBCVS]
  simp only [parseBBB, h1, h2, h3, Bool.and_self, if_true]
  simp only [expectChar, eq_self_iff_true, if_true]
  rw [parseCVS_mk hc hv hs hrest]

/-! ## Matchers on serialized references -/

theorem matchVERSE_mk {bbb c v s : Str} (hb : validBBB bbb = true)
    (hc : validCV c = true) (hv : validCV v = true) (hs : validS s = true) :
    matchVERSE (bbb ++ ['_'] ++ c ++ [':'] ++ v ++ bangText s ++ s) =
      some (bbb, c, v, s) := by
  have h := @parseBCVS_mk bbb c v s [] hb hc hv hs rfl
  rw [List.append_nil] at h
  simp only [matchVERSE, h]

theorem matchVERSE_RANGE_mk {bbb c v1 s1 v2 s2 : Str} (hb : validBBB bbb = true)
    (hc : validCV c = true) (hv1 : validCV v1 = true) (hs1 : validS s1 = true)
    (hv2 : validCV v2 = true) (hs2 : validS s2 = true) :
    matchVERSE_RANGE (mkRangeText bbb c v1 s1 v2 s2) = some (bbb, c, v1, s1, v2, s2) := by
  have hsplit : mkRangeText bbb c v1 s1 v2 s2 =
      bbb ++ ['_'] ++ c ++ [':'] ++ v1 ++ bangText s1 ++ s1 ++
        ('-' :: (v2 ++ bangText s2 ++ s2)) := by
    rw [mkRangeText]; simp
  have hsep : sepOk ('-' :: (v2 ++ bangText s2 ++ s2)) = true := by
    simp only [sepOk]; decide
  have h := @parseBCVS_mk bbb c v1 s1 ('-' :: (v2 ++ bangText s2 ++ s2)) hb hc hv1 hs1 hsep
  have h2 := @parseVS_mk v2 s2 [] hv2 hs2 rfl
  rw [List.append_nil] at h2
  rw [hsplit]
  simp only [matchVERSE_RANGE, h, expectChar, eq_self_iff_true, if_true, h2]

/-! ## The range expansion loops -/

theorem expandLoopVV_zero (bbb c v2 s2 v : Str) :
    expandLoopVV bbb c v2 s2 0 v =
      if v = v2 then some [⟨bbb, c, v2, s2⟩] else none := rfl

theorem expandLoopVV_succ (bbb c v2 s2 : Str) (fuel : Nat) (v : Str) :
    expandLoopVV bbb c v2 s2 (fuel + 1) v =
      if v = v2 then some [⟨bbb, c, v2, s2⟩]
      else
        (expandLoopVV bbb c v2 s2 fuel (natToChars (charsToNat v + 1))).map
          (fun l => ⟨bbb, c, v, []⟩ :: l) := rfl

theorem expandLoopVV_stop (bbb c v2 s2 : Str) (fuel : Nat) (v : Str) (h : v = v2) :
    expandLoopVV bbb c v2 s2 fuel v = some [⟨bbb, c, v2, s2⟩] := by
  cases fuel with
  | zero => rw [expandLoopVV_zero, if_pos h]
  | succ f => rw [expandLoopVV_succ, if_pos h]

theorem expandLoopVV_succ_ne (bbb c v2 s2 : Str) (fuel : Nat) (v : Str) (h : v ≠ v2) :
    expandLoopVV bbb c v2 s2 (fuel + 1) v =
      (expandLoopVV bbb c v2 s2 fuel (natToChars (charsToNat v + 1))).map
        (fun l => ⟨bbb, c, v, []⟩ :: l) := by
  rw [expandLoopVV_succ, if_neg h]

theorem expandLoopVV_complete : ∀ d fuel : Nat, d ≤ fuel → ∀ (bbb c s2 : Str) (v1 : Nat),
    expandLoopVV bbb c (natToChars (v1 + d)) s2 fuel (natToChars v1) =
      some (expandedVV bbb c s2 v1 d) := by
  intro d
  induction d with
  | zero =>
    intro fuel _ bbb c s2 v1
    rw [Nat.add_zero]
    rw [expandLoopVV_stop _ _ _ _ _ _ rfl]
    rfl
  | succ d ih =>
    intro fuel hd bbb c s2 v1
    obtain ⟨f, rfl⟩ : ∃ f, fuel = f + 1 := ⟨fuel - 1, by omega⟩
    have hne : natToChars v1 ≠ natToChars (v1 + (d + 1)) := by
      intro h
      have := natToChars_inj h
      omega
    rw [expandLoopVV_succ_ne _ _ _ _ f _ hne, charsToNat_natToChars]
    have ihh := ih f (by omega) bbb c s2 (v1 + 1)
    rw [show v1 + 1 + d = v1 + (d + 1) from by omega] at ihh
    rw [ihh]
    rfl

theorem expandLoopVV_gt_none (bbb c v2 s2 : Str) :
    ∀ (fuel : Nat) (v : Str), charsToNat v2 < charsToNat v →
      expandLoopVV bbb c v2 s2 fuel v = none := by
  intro fuel
  induction fuel with
  | zero =>
    intro v hv
    have hne : v ≠ v2 := by intro h; subst h; omega
    rw [expandLoopVV_zero, if_neg hne]
  | succ fuel ih =>
    intro v hv
    have hne : v ≠ v2 := by intro h; subst h; omega
    rw [expandLoopVV_succ_ne _ _ _ _ fuel v hne]
    rw [ih (natToChars (charsToNat v + 1)) (by rw [charsToNat_natToChars]; omega)]
    rfl

theorem expandLoopCVCV_zero (bbb c2 v2 s2 c v : Str) :
    expandLoopCVCV bbb c2 v2 s2 0 c v =
      if c = c2 ∧ v = v2 then some [⟨bbb, c, v2, s2⟩] else none := rfl

theorem expandLoopCVCV_succ (bbb c2 v2 s2 : Str) (fuel : Nat) (c v : Str) :
    expandLoopCVCV bbb c2 v2 s2 (fuel + 1) c v =
      if c = c2 ∧ v = v2 then some [⟨bbb, c, v2, s2⟩]
      else
        (if charsToNat (natToChars (charsToNat v + 1)) > 222 then
           expandLoopCVCV bbb c2 v2 s2 fuel (natToChars (charsToNat c + 1)) (strLit "1")
         else
           expandLoopCVCV bbb c2 v2 s2 fuel c (natToChars (charsToNat v + 1))).map
          (fun l => ⟨bbb, c, v, []⟩ :: l) := rfl

theorem expandLoopCVCV_gt_none (bbb c2 v2 s2 : Str) :
    ∀ (fuel : Nat) (c v : Str), charsToNat c2 < charsToNat c →
      expandLoopCVCV bbb c2 v2 s2 fuel c v = none := by
  intro fuel
  induction fuel with
  | zero =>
    intro c v hc
    have hne : ¬(c = c2 ∧ v = v2) := by rintro ⟨h, -⟩; subst h; omega
    rw [expandLoopCVCV_zero, if_neg hne]
  | succ fuel ih =>
    intro c v hc
    have hne : ¬(c = c2 ∧ v = v2) := by rintro ⟨h, -⟩; subst h; omega
    rw [expandLoopCVCV_succ, if_neg hne]
    by_cases h222 : charsToNat (natToChars (charsToNat v + 1)) > 222
    · rw [if_pos h222, ih _ _ (by rw [charsToNat_natToChars]; omega)]
      rfl
    · rw [if_neg h222, ih _ _ hc]
      rfl

/-! ## Shape of the same-chapter expansion -/

theorem expandedVV_ne_nil (bbb c s2 : Str) (v1 d : Nat) :
    expandedVV bbb c s2 v1 d ≠ [] := by
  cases d <;> simp [expandedVV]

theorem getLast?_cons_ne_nil {α : Type} {l : List α} (a : α) (h : l ≠ []) :
    (a :: l).getLast? = l.getLast? := by
  cases l with
  | nil => exact absurd rfl h
  | cons b m => rw [List.getLast?_cons_cons]

theorem expandedVV_length (bbb c s2 : Str) :
    ∀ (d v1 : Nat), (expandedVV bbb c s2 v1 d).length = d + 1 := by
  intro d
  induction d with
  | zero => intro v1; rfl
  | succ d ih => intro v1; simp [expandedVV, ih (v1 + 1)]

theorem expandedVV_head (bbb c s2 : Str) (d v1 : Nat) :
    (expandedVV bbb c s2 v1 d).head? =
      some (if d = 0 then (⟨bbb, c, natToChars v1, s2⟩ : SimpleVerseKey)
            else ⟨bbb, c, natToChars v1, []⟩) := by
  cases d <;> rfl

theorem expandedVV_getLast (bbb c s2 : Str) :
    ∀ (d v1 : Nat), (expandedVV bbb c s2 v1 d).getLast? =
      some ⟨bbb, c, natToChars (v1 + d), s2⟩ := by
  intro d
  induction d with
  | zero => intro v1; rfl
  | succ d ih =>
    intro v1
    rw [show expandedVV bbb c s2 v1 (d + 1) =
        (⟨bbb, c, natToChars v1, []⟩ : SimpleVerseKey) :: expandedVV bbb c s2 (v1 + 1) d
      from rfl]
    rw [getLast?_cons_ne_nil _ (expandedVV_ne_nil bbb c s2 (v1 + 1) d), ih (v1 + 1)]
    rw [show v1 + 1 + d = v1 + (d + 1) from by omega]

/-! ## Claim theorems -/

/-- Claim C1: the claim states that constructing any reference shape
terminates for every string matching its grammar, including same-chapter
ranges with V1 greater than V2 and every cross-chapter range.  The code
violates this: on the grammar-conformant inputs GEN_1:5-3 and, with an
en-dash, GEN_2:1 to chapter 1 verse 1, the expansion while loops never
reach their stop condition, so construction returns out of fuel at every
fuel, which is a proof that the source loops forever. -/
theorem claim_C1_rangeLoopDiverges :
    (∀ fuel : Nat, VerseRangeKey.parseReferenceString fuel (strLit "GEN_1:5-3") =
      .outOfFuel) ∧
    (∀ fuel : Nat, VerseRangeKey.parseReferenceString fuel (strLit "GEN_2:1–1:1") =
      .outOfFuel) := by
  constructor
  · intro fuel
    have hm : matchVERSE_RANGE (strLit "GEN_1:5-3") =
        some (strLit "GEN", strLit "1", strLit "5", [], strLit "3", []) := rfl
    have hloop := expandLoopVV_gt_none (strLit "GEN") (strLit "1") (strLit "3") []
      fuel (strLit "5") (by decide)
    simp only [VerseRangeKey.parseReferenceString, hm, hloop]
  · intro fuel
    have hm1 : matchVERSE_RANGE (strLit "GEN_2:1–1:1") = none := rfl
    have hm2 : matchCHAPTER_RANGE (strLit "GEN_2:1–1:1") =
        some (strLit "GEN", strLit "2", strLit "1", [], strLit "1", strLit "1", []) := rfl
    have hloop := expandLoopCVCV_gt_none (strLit "GEN") (strLit "1") (strLit "1") []
      fuel (strLit "2") (strLit "1") (by decide)
    simp only [VerseRangeKey.parseReferenceString, hm1, hm2, hloop]

/-- Claim C2 counterexample: the claim states that under strict validation a
reversed same-chapter range raises InvalidRangeOrder.  At the concrete
reversed range GEN_1:9-2 the strict-mode assertion of the branch passes (it
checks only the book code, given a registry accepting GEN), and construction
returns out of fuel at every fuel instead of raising anything: no
InvalidRangeOrder check exists in the code. -/
theorem claim_C2_counterexample :
    strictAssertVerseRange (fun _ => true) (strLit "GEN") (strLit "1") (strLit "9") []
      (strLit "2") [] = true ∧
    (∀ fuel : Nat, VerseRangeKey.parseReferenceString fuel (strLit "GEN_1:9-2") =
      .outOfFuel) := by
  refine ⟨rfl, ?_⟩
  intro fuel
  have hm : matchVERSE_RANGE (strLit "GEN_1:9-2") =
      some (strLit "GEN", strLit "1", strLit "9", [], strLit "2", []) := rfl
  have hloop := expandLoopVV_gt_none (strLit "GEN") (strLit "1") (strLit "2") []
    fuel (strLit "9") (by decide)
  simp only [VerseRangeKey.parseReferenceString, hm, hloop]

/-- Claim C2 as amended: for every reversed same-chapter range (end verse
numerically below the start verse), the strict-validation policy asserts
only book-code membership — it never inspects the range order and the code
defines no InvalidRangeOrder — and the construction produces no value
because the expansion loop never terminates. -/
theorem claim_C2_noRangeOrderCheck :
    ∀ (codes : Str → Bool) (bbb c v1 s1 v2 s2 : Str),
      charsToNat v2 < charsToNat v1 →
      strictAssertVerseRange codes bbb c v1 s1 v2 s2 = codes bbb ∧
      ∀ fuel : Nat, expandLoopVV bbb c v2 s2 fuel v1 = none := by
  intro codes bbb c v1 s1 v2 s2 h
  exact ⟨rfl, fun fuel => expandLoopVV_gt_none bbb c v2 s2 fuel v1 h⟩

/-- Claim C2 witness: the amended statement instantiated at the reversed
range GEN chapter 1 verses 5 down to 3 with a registry accepting
every code. -/
theorem claim_C2_witness :
    strictAssertVerseRange (fun _ => true) (strLit "GEN") (strLit "1") (strLit "5") []
      (strLit "3") [] = true ∧
    ∀ fuel : Nat, expandLoopVV (strLit "GEN") (strLit "1") (strLit "3") [] fuel
      (strLit "5") = none := by
  have h := claim_C2_noRangeOrderCheck (fun _ => true) (strLit "GEN") (strLit "1")
    (strLit "5") [] (strLit "3") [] (by decide)
  exact ⟨h.1, h.2⟩

/-- Claim C3 counterexample: the claim states that the first element of the
expansion equals rangeStart including its suffix.  On the successfully
parsed range REV_11:2!b-6!a the expansion begins with the suffix-free key
REV 11 2, not with rangeStart, whose suffix is b. -/
theorem claim_C3_counterexample :
    VerseRangeKey.parseReferenceString 10 (strLit "REV_11:2!b-6!a") =
      .ok ⟨⟨strLit "REV", strLit "11", strLit "2", strLit "b"⟩,
           ⟨strLit "REV", strLit "11", strLit "6", strLit "a"⟩,
           some [⟨strLit "REV", strLit "11", strLit "2", []⟩,
                 ⟨strLit "REV", strLit "11", strLit "3", []⟩,
                 ⟨strLit "REV", strLit "11", strLit "4", []⟩,
                 ⟨strLit "REV", strLit "11", strLit "5", []⟩,
                 ⟨strLit "REV", strLit "11", strLit "6", strLit "a"⟩],
           strLit "V-V"⟩ ∧
    (⟨strLit "REV", strLit "11", strLit "2", []⟩ : SimpleVerseKey) ≠
      ⟨strLit "REV", strLit "11", strLit "2", strLit "b"⟩ := by decide

/-- Claim C3 as amended: for every same-chapter range string with
V1 at most V2 that parses as a VerseRangeKey, the expansion has length
V2 minus V1 plus 1 and its last element equals rangeEnd, but its first
element is the suffix-free key of the start verse when V1 is below V2
(so it equals rangeStart exactly when S1 is empty), and it is rangeEnd
itself when V1 equals V2. -/
theorem claim_C3_expansionShape :
    ∀ (bbb c s1 s2 : Str) (v1 v2 fuel : Nat),
      validBBB bbb = true → validCV c = true → validS s1 = true → validS s2 = true →
      1 ≤ v1 → v1 ≤ v2 → v2 ≤ 199 → v2 - v1 ≤ fuel →
      VerseRangeKey.parseReferenceString fuel
          (mkRangeText bbb c (natToChars v1) s1 (natToChars v2) s2) =
        .ok ⟨⟨bbb, c, natToChars v1, s1⟩, ⟨bbb, c, natToChars v2, s2⟩,
             some (expandedVV bbb c s2 v1 (v2 - v1)), strLit "V-V"⟩ ∧
      (expandedVV bbb c s2 v1 (v2 - v1)).length = (v2 - v1) + 1 ∧
      (expandedVV bbb c s2 v1 (v2 - v1)).head? =
        some (if v2 - v1 = 0 then (⟨bbb, c, natToChars v1, s2⟩ : SimpleVerseKey)
              else ⟨bbb, c, natToChars v1, []⟩) ∧
      (expandedVV bbb c s2 v1 (v2 - v1)).getLast? = some ⟨bbb, c, natToChars v2, s2⟩ := by
  intro bbb c s1 s2 v1 v2 fuel hb hc hs1 hs2 h1 h12 h199 hfuel
  have hv1 : validCV (natToChars v1) = true := validCV_natToChars v1 (by omega) h1
  have hv2 : validCV (natToChars v2) = true := validCV_natToChars v2 (by omega) (by omega)
  have hmatch := matchVERSE_RANGE_mk hb hc hv1 hs1 hv2 hs2
  have hloop := expandLoopVV_complete (v2 - v1) fuel hfuel bbb c s2 v1
  rw [show v1 + (v2 - v1) = v2 from by omega] at hloop
  refine ⟨?_, expandedVV_length _ _ _ _ _, expandedVV_head _ _ _ _ _, ?_⟩
  · simp only [VerseRangeKey.parseReferenceString, hmatch, hloop]
  · rw [expandedVV_getLast, show v1 + (v2 - v1) = v2 from by omega]

/-- Claim C3 witness: the amended statement instantiated at the range
SA2_19:12-19 of the specification scenario, with fuel 10. -/
theorem claim_C3_witness :
    VerseRangeKey.parseReferenceString 10
        (mkRangeText (strLit "SA2") (strLit "19") (natToChars 12) [] (natToChars 19) []) =
      .ok ⟨⟨strLit "SA2", strLit "19", natToChars 12, []⟩,
           ⟨strLit "SA2", strLit "19", natToChars 19, []⟩,
           some (expandedVV (strLit "SA2") (strLit "19") [] 12 (19 - 12)), strLit "V-V"⟩ ∧
    (expandedVV (strLit "SA2") (strLit "19") [] 12 (19 - 12)).length = (19 - 12) + 1 ∧
    (expandedVV (strLit "SA2") (strLit "19") [] 12 (19 - 12)).head? =
      some (if 19 - 12 = 0 then (⟨strLit "SA2", strLit "19", natToChars 12, []⟩ : SimpleVerseKey)
            else ⟨strLit "SA2", strLit "19", natToChars 12, []⟩) ∧
    (expandedVV (strLit "SA2") (strLit "19") [] 12 (19 - 12)).getLast? =
      some ⟨strLit "SA2", strLit "19", natToChars 19, []⟩ :=
  claim_C3_expansionShape (strLit "SA2") (strLit "19") [] [] 12 19 10
    (by decide) (by decide) (by decide) (by decide)
    (by decide) (by decide) (by decide) (by decide)

/-- Claim C4: the claim states that a three-verse same-chapter list yields
its three constituent references.  The code violates this: on GEN_1:1,3,5
the VERSES3_RE branch matches and returns True but never assigns
verseKeysList, so getIncludedVerses yields the empty sequence. -/
theorem claim_C4_threeVerseListEmpty :
    SimpleVersesKey.parseReferenceString (strLit "GEN_1:1,3,5") =
      some ⟨[], strLit "3V"⟩ ∧
    (SimpleVersesKey.parseReferenceString (strLit "GEN_1:1,3,5")).map
      SimpleVersesKey.getIncludedVerses = some [] := by decide

/-- Claim C5: the claim states that a whole-chapter shorthand produces the
endpoints verse 1 and sentinel verse 999 (which the code does) and that
getIncludedVerses returns a precomputed expansion iterable without error.
The code violates the second part: the CHAPTER_RE branch never assigns
verseKeysList and the constructor does not initialize it, so
getIncludedVerses raises AttributeError, modelled by none. -/
theorem claim_C5_chapterShorthand :
    (∀ fuel : Nat, VerseRangeKey.parseReferenceString fuel (strLit "GEN_1") =
      .ok ⟨⟨strLit "GEN", strLit "1", strLit "1", []⟩,
           ⟨strLit "GEN", strLit "1", strLit "999", []⟩, none, strLit "C"⟩) ∧
    VerseRangeKey.getIncludedVerses
      ⟨⟨strLit "GEN", strLit "1", strLit "1", []⟩,
       ⟨strLit "GEN", strLit "1", strLit "999", []⟩, none, strLit "C"⟩ = none :=
  ⟨fun _ => rfl, rfl⟩

/-- Claim C7: round-trip of the canonical machine serialization.  For every
SimpleVerseKey whose book code matches the book-code character classes,
whose chapter and verse strings lie in the 1 to 199 grammar language, and
whose suffix is empty or a single letter a to f, parsing getVerseKeyText
reproduces a structurally equal key. -/
theorem claim_C7_roundTrip :
    ∀ k : SimpleVerseKey,
      validBBB k.BBB = true → validCV k.C = true → validCV k.V = true →
      validS k.S = true →
      SimpleVerseKey.parseReferenceString k.getVerseKeyText = some k := by
  rintro ⟨bbb, c, v, s⟩ hb hc hv hs
  simp only [SimpleVerseKey.getVerseKeyText] at *
  simp only [SimpleVerseKey.parseReferenceString, matchVERSE_mk hb hc hv hs]

/-- Claim C7 witness: the round trip instantiated at GEN chapter 1 verse 1
with no suffix. -/
theorem claim_C7_witness :
    SimpleVerseKey.parseReferenceString
        (SimpleVerseKey.getVerseKeyText ⟨strLit "GEN", strLit "1", strLit "1", []⟩) =
      some ⟨strLit "GEN", strLit "1", strLit "1", []⟩ :=
  claim_C7_roundTrip ⟨strLit "GEN", strLit "1", strLit "1", []⟩
    (by decide) (by decide) (by decide) (by decide)

/-- Claim C8: the claim states that equality is structural over the four
fields (which holds) and that the dictionary hash string is built from all
four fields, so keys differing in verse or suffix hash differently.  The
code violates the hash part: the format string of makeHash has only two
placeholders, so the hash is BBB colon C only, and the distinct keys
GEN 1:1 and GEN 1:2, and likewise GEN 1:1!a and GEN 1:1!b, collide on the
hash string GEN:1. -/
theorem claim_C8_makeHashCollision :
    ((⟨strLit "GEN", strLit "1", strLit "1", []⟩ : SimpleVerseKey) ≠
      ⟨strLit "GEN", strLit "1", strLit "2", []⟩) ∧
    SimpleVerseKey.makeHash ⟨strLit "GEN", strLit "1", strLit "1", []⟩ =
      SimpleVerseKey.makeHash ⟨strLit "GEN", strLit "1", strLit "2", []⟩ ∧
    SimpleVerseKey.makeHash ⟨strLit "GEN", strLit "1", strLit "1", []⟩ =
      strLit "GEN:1" ∧
    ((⟨strLit "GEN", strLit "1", strLit "1", strLit "a"⟩ : SimpleVerseKey) ≠
      ⟨strLit "GEN", strLit "1", strLit "1", strLit "b"⟩) ∧
    SimpleVerseKey.makeHash ⟨strLit "GEN", strLit "1", strLit "1", strLit "a"⟩ =
      SimpleVerseKey.makeHash ⟨strLit "GEN", strLit "1", strLit "1", strLit "b"⟩ := by
  decide

/-- Claim C9: the claim states that a cross-chapter range serializes with
en-dash joined endpoints.  The code violates this: getVerseKeyText joins
the endpoint serializations with a hyphen for every key type, so the
cross-chapter range parsed from SA2_12:199 en-dash 13:2 serializes to
SA2_12:199-SA2_13:2, which contains a hyphen and no en-dash. -/
theorem claim_C9_crossChapterHyphen :
    PRes.map VerseRangeKey.getVerseKeyText
      (VerseRangeKey.parseReferenceString 40 (strLit "SA2_12:199–13:2")) =
      .ok (strLit "SA2_12:199-SA2_13:2") ∧
    '–' ∉ strLit "SA2_12:199-SA2_13:2" ∧ '-' ∈ strLit "SA2_12:199-SA2_13:2" := by
  decide

/-- Claim C10 counterexample: the claim states that a trailing bare
exclamation mark makes the parse fail.  On GEN_1:1! the parse succeeds with
an empty suffix, because S_RE makes the letter after the exclamation mark
optional. -/
theorem claim_C10_counterexample :
    SimpleVerseKey.parseReferenceString (strLit "GEN_1:1!") =
      some ⟨strLit "GEN", strLit "1", strLit "1", []⟩ := by decide

/-- Claim C10 as amended: for every string of the form BBB underscore C
colon V exclamation mark, with BBB in the book-code classes and C, V in the
1 to 199 language, SimpleVerseKey construction succeeds and produces the
key with an empty suffix. -/
theorem claim_C10_bareBangParses :
    ∀ bbb c v : Str,
      validBBB bbb = true → validCV c = true → validCV v = true →
      SimpleVerseKey.parseReferenceString (bbb ++ ['_'] ++ c ++ [':'] ++ v ++ ['!']) =
        some ⟨bbb, c, v, []⟩ := by
  intro bbb c v hb hc hv
  have hvs : parseVS (v ++ ['!']) = some ((v, []), []) := by
    rw [parseVS, @parseCV_append v ['!'] hv (by decide)]
    rfl
  have hcvs : parseCVS (c ++ (':' :: (v ++ ['!']))) = some ((c, v, []), []) := by
    rw [parseCVS, @parseCV_append c (':' :: (v ++ ['!'])) hc
      (by simp only [noDigitHead]; decide)]
    simp only [expectChar, eq_self_iff_true, if_true]
    rw [hvs]
  obtain ⟨b1, b2, b3, rfl, h1, h2, h3⟩ := validBBB_cases hb
  have hassoc : [b1, b2, b3] ++ ['_'] ++ c ++ [':'] ++ v ++ ['!'] =
      b1 :: b2 :: b3 :: ('_' :: (c ++ (':' :: (v ++ ['!'])))) := by simp
  rw [hassoc]
  simp only [SimpleVerseKey.parseReferenceString, matchVERSE, parseBCVS, parseBBB,
    h1, h2, h3, Bool.and_self, if_true, expectChar, eq_self_iff_true, hcvs]

/-- Claim C10 witness: the amended statement instantiated at EXO_2:10
followed by a bare exclamation mark. -/
theorem claim_C10_witness :
    SimpleVerseKey.parseReferenceString
        (strLit "EXO" ++ ['_'] ++ strLit "2" ++ [':'] ++ strLit "10" ++ ['!']) =
      some ⟨strLit "EXO", strLit "2", strLit "10", []⟩ :=
  claim_C10_bareBangParses (strLit "EXO") (strLit "2") (strLit "10")
    (by decide) (by decide) (by decide)

/-! ## Soundness of the recognizers: captured groups lie in the classes -/

theorem parseCV_sound {l v r : Str} (h : parseCV l = some (v, r)) :
    validCV v = true := by
  rw [parseCV] at h
  cases htd : takeDigits l with
  | mk ds r2 =>
    rw [htd] at h
    by_cases hv : validCV ds = true
    · simp only [if_pos hv, Option.some.injEq, Prod.mk.injEq] at h
      exact h.1 ▸ hv
    · simp only [Bool.not_eq_true] at hv
      simp [hv] at h

theorem parseSuffix_sound : ∀ {l s r : Str}, parseSuffix l = (s, r) → validS s = true := by
  intro l s r h
  cases l with
  | nil =>
    obtain ⟨hs, -⟩ := Prod.mk.inj h
    rw [← hs]; rfl
  | cons c rest =>
    have he : parseSuffix (c :: rest) =
        (if c = '!' then
          match rest with
          | c2 :: rest2 => if isSuffixChar c2 then ([c2], rest2) else ([], rest)
          | [] => ([], [])
        else ([], c :: rest)) := rfl
    rw [he] at h
    by_cases hbang : c = '!'
    · rw [if_pos hbang] at h
      cases rest with
      | nil =>
        obtain ⟨hs, -⟩ := Prod.mk.inj h
        rw [← hs]; rfl
      | cons c2 rest2 =>
        by_cases hsc : isSuffixChar c2 = true
        · simp only [if_pos hsc] at h
          obtain ⟨hs, -⟩ := Prod.mk.inj h
          rw [← hs]
          simpa [validS] using hsc
        · simp only [Bool.not_eq_true] at hsc
          simp only [hsc, Bool.false_eq_true, if_false] at h
          obtain ⟨hs, -⟩ := Prod.mk.inj h
          rw [← hs]; rfl
    · rw [if_neg hbang] at h
      obtain ⟨hs, -⟩ := Prod.mk.inj h
      rw [← hs]; rfl

theorem parseBBB_sound : ∀ {l : Str} {b r : Str}, parseBBB l = some (b, r) →
    validBBB b = true := by
  intro l b r h
  match l with
  | [] => simp [parseBBB] at h
  | [_] => simp [parseBBB] at h
  | [_, _] => simp [parseBBB] at h
  | b1 :: b2 :: b3 :: rest =>
    have he : parseBBB (b1 :: b2 :: b3 :: rest) =
        (if isBBB1 b1 && isBBB2 b2 && isBBB3 b3 then some ([b1, b2, b3], rest)
         else none) := rfl
    rw [he] at h
    by_cases hcl : (isBBB1 b1 && isBBB2 b2 && isBBB3 b3) = true
    · rw [if_pos hcl] at h
      simp only [Option.some.injEq, Prod.mk.injEq] at h
      rw [← h.1]
      simpa [validBBB] using hcl
    · simp only [Bool.not_eq_true] at hcl
      simp [hcl] at h

theorem parseVS_sound {l : Str} {v s r : Str} (h : parseVS l = some ((v, s), r)) :
    validCV v = true ∧ validS s = true := by
  rw [parseVS] at h
  cases hcv : parseCV l with
  | none => simp only [hcv] at h; simp at h
  | some p =>
    obtain ⟨v0, r0⟩ := p
    simp only [hcv] at h
    cases hps : parseSuffix r0 with
    | mk s0 r2 =>
      simp only [hps] at h
      simp only [Option.some.injEq, Prod.mk.injEq] at h
      obtain ⟨⟨hv, hs⟩, -⟩ := h
      exact ⟨hv ▸ parseCV_sound hcv, hs ▸ parseSuffix_sound hps⟩

theorem parseCVS_sound {l : Str} {c v s r : Str} (h : parseCVS l = some ((c, v, s), r)) :
    validCV c = true ∧ validCV v = true ∧ validS s = true := by
  rw [parseCVS] at h
  cases hcv : parseCV l with
  | none => simp only [hcv] at h; simp at h
  | some p =>
    obtain ⟨c0, r0⟩ := p
    simp only [hcv] at h
    cases hec : expectChar ':' r0 with
    | none => simp only [hec] at h; simp at h
    | some r2 =>
      simp only [hec] at h
      cases hvs : parseVS r2 with
      | none => simp only [hvs] at h; simp at h
      | some q =>
        obtain ⟨⟨v0, s0⟩, r3⟩ := q
        simp only [hvs] at h
        simp only [Option.some.injEq, Prod.mk.injEq] at h
        obtain ⟨⟨hc, hv, hs⟩, -⟩ := h
        obtain ⟨hv0, hs0⟩ := parseVS_sound hvs
        exact ⟨hc ▸ parseCV_sound hcv, hv ▸ hv0, hs ▸ hs0⟩

theorem parseBCVS_sound {l : Str} {bbb c v s r : Str}
    (h : parseBCVS l = some ((bbb, c, v, s), r)) :
    validBBB bbb = true ∧ validCV c = true ∧ validCV v = true ∧ validS s = true := by
  rw [parseBCVS] at h
  cases hbb : parseBBB l with
  | none => simp only [hbb] at h; simp at h
  | some p =>
    obtain ⟨b0, r0⟩ := p
    simp only [hbb] at h
    cases hec : expectChar '_' r0 with
    | none => simp only [hec] at h; simp at h
    | some r2 =>
      simp only [hec] at h
      cases hcvs : parseCVS r2 with
      | none => simp only [hcvs] at h; simp at h
      | some q =>
        obtain ⟨⟨c0, v0, s0⟩, r3⟩ := q
        simp only [hcvs] at h
        simp only [Option.some.injEq, Prod.mk.injEq] at h
        obtain ⟨⟨hb, hc, hv, hs⟩, -⟩ := h
        obtain ⟨hc0, hv0, hs0⟩ := parseCVS_sound hcvs
        exact ⟨hb ▸ parseBBB_sound hbb, hc ▸ hc0, hv ▸ hv0, hs ▸ hs0⟩

theorem matchVERSE_RANGE_PLUS_sound {l : Str} {bbb c v1 s1 v2 s2 v3 s3 : Str}
    (h : matchVERSE_RANGE_PLUS l = some (bbb, c, v1, s1, v2, s2, v3, s3)) :
    validBBB bbb = true ∧ validCV c = true ∧ validCV v1 = true ∧ validS s1 = true ∧
      validCV v2 = true ∧ validS s2 = true := by
  rw [matchVERSE_RANGE_PLUS] at h
  cases hbcvs : parseBCVS l with
  | none => simp only [hbcvs] at h; simp at h
  | some p =>
    obtain ⟨⟨bbb0, c0, v0, s0⟩, r⟩ := p
    simp only [hbcvs] at h
    cases hec : expectChar '-' r with
    | none => simp only [hec] at h; simp at h
    | some r2 =>
      simp only [hec] at h
      cases hvs : parseVS r2 with
      | none => simp only [hvs] at h; simp at h
      | some q =>
        obtain ⟨⟨v20, s20⟩, r3⟩ := q
        simp only [hvs] at h
        cases hec2 : expectChar ',' r3 with
        | none => simp only [hec2] at h; simp at h
        | some r4 =>
          simp only [hec2] at h
          cases hvs2 : parseVS r4 with
          | none => simp only [hvs2] at h; simp at h
          | some q2 =>
            obtain ⟨⟨v30, s30⟩, r5⟩ := q2
            simp only [hvs2] at h
            cases r5 with
            | cons _ _ => simp at h
            | nil =>
              simp only [Option.some.injEq, Prod.mk.injEq] at h
              obtain ⟨hb, hc, hv1, hs1, hv2, hs2, -, -⟩ := h
              obtain ⟨hb0, hc0, hv0, hs0⟩ := parseBCVS_sound hbcvs
              obtain ⟨hv20, hs20⟩ := parseVS_sound hvs
              exact ⟨hb ▸ hb0, hc ▸ hc0, hv1 ▸ hv0, hs1 ▸ hs0, hv2 ▸ hv20, hs2 ▸ hs20⟩

theorem matchVERSE_PLUS_RANGE_sound {l : Str} {bbb c v1 s1 v2 s2 v3 s3 : Str}
    (h : matchVERSE_PLUS_RANGE l = some (bbb, c, v1, s1, v2, s2, v3, s3)) :
    validBBB bbb = true ∧ validCV c = true ∧ validCV v2 = true ∧ validS s2 = true ∧
      validCV v3 = true ∧ validS s3 = true := by
  rw [matchVERSE_PLUS_RANGE] at h
  cases hbcvs : parseBCVS l with
  | none => simp only [hbcvs] at h; simp at h
  | some p =>
    obtain ⟨⟨bbb0, c0, v0, s0⟩, r⟩ := p
    simp only [hbcvs] at h
    cases hec : expectChar ',' r with
    | none => simp only [hec] at h; simp at h
    | some r2 =>
      simp only [hec] at h
      cases hvs : parseVS r2 with
      | none => simp only [hvs] at h; simp at h
      | some q =>
        obtain ⟨⟨v20, s20⟩, r3⟩ := q
        simp only [hvs] at h
        cases hec2 : expectChar '-' r3 with
        | none => simp only [hec2] at h; simp at h
        | some r4 =>
          simp only [hec2] at h
          cases hvs2 : parseVS r4 with
          | none => simp only [hvs2] at h; simp at h
          | some q2 =>
            obtain ⟨⟨v30, s30⟩, r5⟩ := q2
            simp only [hvs2] at h
            cases r5 with
            | cons _ _ => simp at h
            | nil =>
              simp only [Option.some.injEq, Prod.mk.injEq] at h
              obtain ⟨hb, hc, -, -, hv2, hs2, hv3, hs3⟩ := h
              obtain ⟨hb0, hc0, -, -⟩ := parseBCVS_sound hbcvs
              obtain ⟨hv20, hs20⟩ := parseVS_sound hvs
              obtain ⟨hv30, hs30⟩ := parseVS_sound hvs2
              exact ⟨hb ▸ hb0, hc ▸ hc0, hv2 ▸ hv20, hs2 ▸ hs20, hv3 ▸ hv30, hs3 ▸ hs30⟩

theorem matchVERSE_PLUS_RANGE_PLUS_sound {l : Str} {bbb c v1 s1 v2 s2 v3 s3 v4 s4 : Str}
    (h : matchVERSE_PLUS_RANGE_PLUS l = some (bbb, c, v1, s1, v2, s2, v3, s3, v4, s4)) :
    validBBB bbb = true ∧ validCV c = true ∧ validCV v2 = true ∧ validS s2 = true ∧
      validCV v3 = true ∧ validS s3 = true := by
  rw [matchVERSE_PLUS_RANGE_PLUS] at h
  cases hbcvs : parseBCVS l with
  | none => simp only [hbcvs] at h; simp at h
  | some p =>
    obtain ⟨⟨bbb0, c0, v0, s0⟩, r⟩ := p
    simp only [hbcvs] at h
    cases hec : expectChar ',' r with
    | none => simp only [hec] at h; simp at h
    | some r2 =>
      simp only [hec] at h
      cases hvs : parseVS r2 with
      | none => simp only [hvs] at h; simp at h
      | some q =>
        obtain ⟨⟨v20, s20⟩, r3⟩ := q
        simp only [hvs] at h
        cases hec2 : expectChar '-' r3 with
        | none => simp only [hec2] at h; simp at h
        | some r4 =>
          simp only [hec2] at h
          cases hvs2 : parseVS r4 with
          | none => simp only [hvs2] at h; simp at h
          | some q2 =>
            obtain ⟨⟨v30, s30⟩, r5⟩ := q2
            simp only [hvs2] at h
            cases hec3 : expectChar ',' r5 with
            | none => simp only [hec3] at h; simp at h
            | some r6 =>
              simp only [hec3] at h
              cases hvs3 : parseVS r6 with
              | none => simp only [hvs3] at h; simp at h
              | some q3 =>
                obtain ⟨⟨v40, s40⟩, r7⟩ := q3
                simp only [hvs3] at h
                cases r7 with
                | cons _ _ => simp at h
                | nil =>
                  simp only [Option.some.injEq, Prod.mk.injEq] at h
                  obtain ⟨hb, hc, -, -, hv2, hs2, hv3, hs3, -, -⟩ := h
                  obtain ⟨hb0, hc0, -, -⟩ := parseBCVS_sound hbcvs
                  obtain ⟨hv20, hs20⟩ := parseVS_sound hvs
                  obtain ⟨hv30, hs30⟩ := parseVS_sound hvs2
                  exact ⟨hb ▸ hb0, hc ▸ hc0, hv2 ▸ hv20, hs2 ▸ hs20, hv3 ▸ hv30, hs3 ▸ hs30⟩

/-! ## Characterization of the class parsers for the dispatcher -/

theorem svk_parse_none_iff (s : Str) :
    SimpleVerseKey.parseReferenceString s = none ↔ matchVERSE s = none := by
  cases h : matchVERSE s with
  | none => simp [SimpleVerseKey.parseReferenceString, h]
  | some g =>
    obtain ⟨bbb, c, v, su⟩ := g
    simp [SimpleVerseKey.parseReferenceString, h]

theorem svsk_parse_none_iff (s : Str) :
    SimpleVersesKey.parseReferenceString s = none ↔
      matchVERSES2 s = none ∧ matchVERSES2C s = none ∧
      matchVERSES3 s = none ∧ matchVERSES3C s = none := by
  cases h1 : matchVERSES2 s with
  | some g =>
    obtain ⟨bbb, c, v1, s1, v2, s2⟩ := g
    simp [SimpleVersesKey.parseReferenceString, h1]
  | none =>
  cases h2 : matchVERSES2C s with
  | some g =>
    obtain ⟨bbb, c1, v1, s1, c2, v2, s2⟩ := g
    simp [SimpleVersesKey.parseReferenceString, h1, h2]
  | none =>
  cases h3 : matchVERSES3 s with
  | some g => simp [SimpleVersesKey.parseReferenceString, h1, h2, h3]
  | none =>
  cases h4 : matchVERSES3C s with
  | some g => simp [SimpleVersesKey.parseReferenceString, h1, h2, h3, h4]
  | none => simp [SimpleVersesKey.parseReferenceString, h1, h2, h3, h4]

theorem vrk_parse_noMatch_iff (fuel : Nat) (s : Str) :
    VerseRangeKey.parseReferenceString fuel s = .noMatch ↔
      matchVERSE_RANGE s = none ∧ matchCHAPTER_RANGE s = none ∧
      matchCHAPTER s = none := by
  cases h1 : matchVERSE_RANGE s with
  | some g =>
    obtain ⟨bbb, c, v1, s1, v2, s2⟩ := g
    simp only [VerseRangeKey.parseReferenceString, h1]
    cases expandLoopVV bbb c v2 s2 fuel v1 <;> simp
  | none =>
  cases h2 : matchCHAPTER_RANGE s with
  | some g =>
    obtain ⟨bbb, c1, v1, s1, c2, v2, s2⟩ := g
    simp only [VerseRangeKey.parseReferenceString, h1, h2]
    cases expandLoopCVCV bbb c2 v2 s2 fuel c1 v1 <;> simp
  | none =>
  cases h3 : matchCHAPTER s with
  | some g =>
    obtain ⟨bbb, c⟩ := g
    simp [VerseRangeKey.parseReferenceString, h1, h2, h3]
  | none => simp [VerseRangeKey.parseReferenceString, h1, h2, h3]

theorem vrk_parse_mkRangeText_ne_noMatch (fuel : Nat) {bbb c v1 s1 v2 s2 : Str}
    (hb : validBBB bbb = true) (hc : validCV c = true) (hv1 : validCV v1 = true)
    (hs1 : validS s1 = true) (hv2 : validCV v2 = true) (hs2 : validS s2 = true) :
    VerseRangeKey.parseReferenceString fuel (mkRangeText bbb c v1 s1 v2 s2) ≠
      .noMatch := by
  have hm := matchVERSE_RANGE_mk hb hc hv1 hs1 hv2 hs2
  simp only [VerseRangeKey.parseReferenceString, hm]
  cases expandLoopVV bbb c v2 s2 fuel v1 <;> simp

theorem verseRangePlusResult_ne_noMatch (fuel : Nat) {bbb c v1 s1 v2 s2 v3 s3 : Str}
    (hb : validBBB bbb = true) (hc : validCV c = true) (hv1 : validCV v1 = true)
    (hs1 : validS s1 = true) (hv2 : validCV v2 = true) (hs2 : validS s2 = true) :
    verseRangePlusResult fuel bbb c v1 s1 v2 s2 v3 s3 ≠ .noMatch := by
  rw [verseRangePlusResult]
  cases hr : VerseRangeKey.parseReferenceString fuel (mkRangeText bbb c v1 s1 v2 s2) with
  | ok rk => simp
  | outOfFuel => simp
  | noMatch => exact absurd hr (vrk_parse_mkRangeText_ne_noMatch fuel hb hc hv1 hs1 hv2 hs2)

theorem versePlusRangeResult_ne_noMatch (fuel : Nat) {bbb c v1 s1 v2 s2 v3 s3 : Str}
    (hb : validBBB bbb = true) (hc : validCV c = true) (hv2 : validCV v2 = true)
    (hs2 : validS s2 = true) (hv3 : validCV v3 = true) (hs3 : validS s3 = true) :
    versePlusRangeResult fuel bbb c v1 s1 v2 s2 v3 s3 ≠ .noMatch := by
  rw [versePlusRangeResult]
  cases hr : VerseRangeKey.parseReferenceString fuel (mkRangeText bbb c v2 s2 v3 s3) with
  | ok rk => simp
  | outOfFuel => simp
  | noMatch => exact absurd hr (vrk_parse_mkRangeText_ne_noMatch fuel hb hc hv2 hs2 hv3 hs3)

theorem versePlusRangePlusResult_ne_noMatch (fuel : Nat)
    {bbb c v1 s1 v2 s2 v3 s3 v4 s4 : Str}
    (hb : validBBB bbb = true) (hc : validCV c = true) (hv2 : validCV v2 = true)
    (hs2 : validS s2 = true) (hv3 : validCV v3 = true) (hs3 : validS s3 = true) :
    versePlusRangePlusResult fuel bbb c v1 s1 v2 s2 v3 s3 v4 s4 ≠ .noMatch := by
  rw [versePlusRangePlusResult]
  cases hr : VerseRangeKey.parseReferenceString fuel (mkRangeText bbb c v2 s2 v3 s3) with
  | ok rk => simp
  | outOfFuel => simp
  | noMatch => exact absurd hr (vrk_parse_mkRangeText_ne_noMatch fuel hb hc hv2 hs2 hv3 hs3)

theorem flex_all_fail (fuel : Nat) (s : Str) (h : noGrammarMatch s = true) :
    FlexibleVersesKey.parseReferenceString fuel s = (.noMatch, [s]) := by
  rw [noGrammarMatch] at h
  simp only [Bool.and_eq_true, Option.isNone_iff_eq_none] at h
  obtain ⟨⟨⟨⟨⟨⟨⟨⟨⟨⟨h1, h2⟩, h3⟩, h4⟩, h5⟩, h6⟩, h7⟩, h8⟩, h9⟩, h10⟩, h11⟩ := h
  have hsvk : SimpleVerseKey.parseReferenceString s = none := (svk_parse_none_iff s).mpr h1
  have hsvsk : SimpleVersesKey.parseReferenceString s = none :=
    (svsk_parse_none_iff s).mpr ⟨h2, h3, h4, h5⟩
  have hvrk : VerseRangeKey.parseReferenceString fuel s = .noMatch :=
    (vrk_parse_noMatch_iff fuel s).mpr ⟨h6, h7, h8⟩
  simp only [FlexibleVersesKey.parseReferenceString, hsvk, hsvsk, hvrk, h9, h10, h11]

theorem flex_some_match (fuel : Nat) (s : Str) (h : noGrammarMatch s = false) :
    (FlexibleVersesKey.parseReferenceString fuel s).1 ≠ .noMatch ∧
      (FlexibleVersesKey.parseReferenceString fuel s).2 = ([] : List Str) := by
  cases h1 : SimpleVerseKey.parseReferenceString s with
  | some k => simp [FlexibleVersesKey.parseReferenceString, h1]
  | none =>
  cases h2 : SimpleVersesKey.parseReferenceString s with
  | some k => simp [FlexibleVersesKey.parseReferenceString, h1, h2]
  | none =>
  cases h3 : VerseRangeKey.parseReferenceString fuel s with
  | ok k => simp [FlexibleVersesKey.parseReferenceString, h1, h2, h3]
  | outOfFuel => simp [FlexibleVersesKey.parseReferenceString, h1, h2, h3]
  | noMatch =>
  cases h4 : matchVERSE_RANGE_PLUS s with
  | some g =>
    obtain ⟨bbb, c, v1, s1, v2, s2, v3, s3⟩ := g
    obtain ⟨hb, hc, hv1, hs1, hv2, hs2⟩ := matchVERSE_RANGE_PLUS_sound h4
    have hne := @verseRangePlusResult_ne_noMatch fuel bbb c v1 s1 v2 s2 v3 s3
      hb hc hv1 hs1 hv2 hs2
    simp only [FlexibleVersesKey.parseReferenceString, h1, h2, h3, h4]
    exact ⟨hne, trivial⟩
  | none =>
  cases h5 : matchVERSE_PLUS_RANGE s with
  | some g =>
    obtain ⟨bbb, c, v1, s1, v2, s2, v3, s3⟩ := g
    obtain ⟨hb, hc, hv2, hs2, hv3, hs3⟩ := matchVERSE_PLUS_RANGE_sound h5
    have hne := @versePlusRangeResult_ne_noMatch fuel bbb c v1 s1 v2 s2 v3 s3
      hb hc hv2 hs2 hv3 hs3
    simp only [FlexibleVersesKey.parseReferenceString, h1, h2, h3, h4, h5]
    exact ⟨hne, trivial⟩
  | none =>
  cases h6 : matchVERSE_PLUS_RANGE_PLUS s with
  | some g =>
    obtain ⟨bbb, c, v1, s1, v2, s2, v3, s3, v4, s4⟩ := g
    obtain ⟨hb, hc, hv2, hs2, hv3, hs3⟩ := matchVERSE_PLUS_RANGE_PLUS_sound h6
    have hne := @versePlusRangePlusResult_ne_noMatch fuel bbb c v1 s1 v2 s2 v3 s3 v4 s4
      hb hc hv2 hs2 hv3 hs3
    simp only [FlexibleVersesKey.parseReferenceString, h1, h2, h3, h4, h5, h6]
    exact ⟨hne, trivial⟩
  | none =>
    exfalso
    have hng : noGrammarMatch s = true := by
      rw [noGrammarMatch]
      obtain ⟨g2, g3, g4, g5⟩ := (svsk_parse_none_iff s).mp h2
      obtain ⟨g6, g7, g8⟩ := (vrk_parse_noMatch_iff fuel s).mp h3
      simp [(svk_parse_none_iff s).mp h1, g2, g3, g4, g5, g6, g7, g8, h4, h5, h6]
    rw [h] at hng
    cases hng

/-- Claim C6: the dispatcher attempts the grammars in the fixed order
SimpleVerseKey, SimpleVersesKey, VerseRangeKey, then the compound grammars
V-V,V then V,V-V then V,V-V,V; the first grammar that matches determines
the result and no later grammar affects it; and construction fails, logging
the original string exactly once, precisely when none of the grammars
matches.  Stated for the default non-strict configuration; on a first
matching grammar whose expansion loop never finishes the dispatcher
neither fails nor returns, reported as out of fuel. -/
theorem claim_C6_dispatch (fuel : Nat) (s : Str) :
    ((FlexibleVersesKey.parseReferenceString fuel s).1 = .noMatch ↔
      noGrammarMatch s = true) ∧
    ((FlexibleVersesKey.parseReferenceString fuel s).2 =
      if noGrammarMatch s = true then [s] else []) ∧
    (∀ k, SimpleVerseKey.parseReferenceString s = some k →
      FlexibleVersesKey.parseReferenceString fuel s = (.ok ⟨[.svk k], none⟩, [])) ∧
    (SimpleVerseKey.parseReferenceString s = none →
      ∀ k, SimpleVersesKey.parseReferenceString s = some k →
        FlexibleVersesKey.parseReferenceString fuel s = (.ok ⟨[.svsk k], none⟩, [])) ∧
    (SimpleVerseKey.parseReferenceString s = none →
      SimpleVersesKey.parseReferenceString s = none →
      ∀ k, VerseRangeKey.parseReferenceString fuel s = .ok k →
        FlexibleVersesKey.parseReferenceString fuel s = (.ok ⟨[.vrk k], none⟩, [])) ∧
    (SimpleVerseKey.parseReferenceString s = none →
      SimpleVersesKey.parseReferenceString s = none →
      VerseRangeKey.parseReferenceString fuel s = .noMatch →
      ∀ bbb c v1 s1 v2 s2 v3 s3,
        matchVERSE_RANGE_PLUS s = some (bbb, c, v1, s1, v2, s2, v3, s3) →
        FlexibleVersesKey.parseReferenceString fuel s =
          (verseRangePlusResult fuel bbb c v1 s1 v2 s2 v3 s3, [])) ∧
    (SimpleVerseKey.parseReferenceString s = none →
      SimpleVersesKey.parseReferenceString s = none →
      VerseRangeKey.parseReferenceString fuel s = .noMatch →
      matchVERSE_RANGE_PLUS s = none →
      ∀ bbb c v1 s1 v2 s2 v3 s3,
        matchVERSE_PLUS_RANGE s = some (bbb, c, v1, s1, v2, s2, v3, s3) →
        FlexibleVersesKey.parseReferenceString fuel s =
          (versePlusRangeResult fuel bbb c v1 s1 v2 s2 v3 s3, [])) ∧
    (SimpleVerseKey.parseReferenceString s = none →
      SimpleVersesKey.parseReferenceString s = none →
      VerseRangeKey.parseReferenceString fuel s = .noMatch →
      matchVERSE_RANGE_PLUS s = none →
      matchVERSE_PLUS_RANGE s = none →
      ∀ bbb c v1 s1 v2 s2 v3 s3 v4 s4,
        matchVERSE_PLUS_RANGE_PLUS s = some (bbb, c, v1, s1, v2, s2, v3, s3, v4, s4) →
        FlexibleVersesKey.parseReferenceString fuel s =
          (versePlusRangePlusResult fuel bbb c v1 s1 v2 s2 v3 s3 v4 s4, [])) := by
  refine ⟨?_, ?_, ?_, ?_, ?_, ?_, ?_, ?_⟩
  · constructor
    · intro hm
      by_cases hng : noGrammarMatch s = true
      · exact hng
      · rw [Bool.not_eq_true] at hng
        exact absurd hm (flex_some_match fuel s hng).1
    · intro hng
      rw [flex_all_fail fuel s hng]
  · by_cases hng : noGrammarMatch s = true
    · rw [flex_all_fail fuel s hng, if_pos hng]
    · rw [Bool.not_eq_true] at hng
      rw [(flex_some_match fuel s hng).2, if_neg (by simp [hng])]
  · intro k h1
    simp only [FlexibleVersesKey.parseReferenceString, h1]
  · intro h1 k h2
    simp only [FlexibleVersesKey.parseReferenceString, h1, h2]
  · intro h1 h2 k h3
    simp only [FlexibleVersesKey.parseReferenceString, h1, h2, h3]
  · intro h1 h2 h3 bbb c v1 s1 v2 s2 v3 s3 h4
    simp only [FlexibleVersesKey.parseReferenceString, h1, h2, h3, h4]
  · intro h1 h2 h3 h4 bbb c v1 s1 v2 s2 v3 s3 h5
    simp only [FlexibleVersesKey.parseReferenceString, h1, h2, h3, h4, h5]
  · intro h1 h2 h3 h4 h5 bbb c v1 s1 v2 s2 v3 s3 v4 s4 h6
    simp only [FlexibleVersesKey.parseReferenceString, h1, h2, h3, h4, h5, h6]

/-- Claim C6 witness: the dispatch precedence instantiated at the compound
string GEN_1:1-3,7, which reaches the V-V,V branch after the three simpler
shapes decline, and the single failure log on the unparseable string ABC. -/
theorem claim_C6_witness :
    FlexibleVersesKey.parseReferenceString 10 (strLit "GEN_1:1-3,7") =
      (verseRangePlusResult 10 (strLit "GEN") (strLit "1") (strLit "1") []
        (strLit "3") [] (strLit "7") [], []) ∧
    (FlexibleVersesKey.parseReferenceString 10 (strLit "ABC")).2 =
      [strLit "ABC"] := by
  constructor
  · exact (claim_C6_dispatch 10 (strLit "GEN_1:1-3,7")).2.2.2.2.2.1
      rfl rfl rfl (strLit "GEN") (strLit "1") (strLit "1") [] (strLit "3") []
      (strLit "7") [] rfl
  · have h := (claim_C6_dispatch 10 (strLit "ABC")).2.1
    rw [h, if_pos (by decide)]

end VerseReferences



